import Mathlib

set_option maxRecDepth 8000

/-!
Verification of the notion-tidy script (src/app/dead-ends.py) against its
natural-language specification.

The script manipulates JSON-shaped data coming from the Notion API and from a
local model endpoint.  We embed that data as the inductive type `J` below and
translate each Python function into a Lean function over `J`.  Python
subscripting, `dict.get`, truthiness, iteration and string operations are
modelled by small helper functions; a Python exception is modelled by the
`Except PyErr` monad (a raised exception is an `Except.error`).  Network calls
(the Notion client, `requests.post`) are external collaborators: each embedded
function takes the data those calls would have returned as an argument.
-/

/-- Python/JSON values as manipulated by the script. -/
inductive J where
  | s (v : String)
  | i (v : Int)
  | b (v : Bool)
  | null
  | arr (xs : List J)
  | obj (kvs : List (String × J))

/-- Kinds of Python exception the embedded code can raise. -/
inductive PyErr where
  | keyError
  | typeError
  | attributeError
  | indexError
  | connectionError
  | exhausted
  deriving DecidableEq

/-- First-match lookup in an association list; models lookup in a Python dict
(whose keys are unique, so first-match agrees with dict lookup). -/
def jlookup : List (String × J) → String → Option J
  | [], _ => none
  | (k', v) :: rest, k => if k' = k then some v else jlookup rest k

/-- Python `d.get(k, default)`: dictionaries answer the lookup, any other value
raises AttributeError (no `get` method). -/
def J.getD : J → String → J → Except PyErr J
  | .obj kvs, k, d => .ok ((jlookup kvs k).getD d)
  | _, _, _ => .error .attributeError

/-- Python `d[k]` with a string key: KeyError when a dictionary lacks the key,
TypeError on values that do not support string subscripts. -/
def J.sub : J → String → Except PyErr J
  | .obj kvs, k =>
    match jlookup kvs k with
    | some v => .ok v
    | none => .error .keyError
  | _, _ => .error .typeError

/-- Python `x[0]`: head of a list, first character of a string, KeyError on a
string-keyed dictionary, TypeError otherwise. -/
def J.subIdx0 : J → Except PyErr J
  | .arr [] => .error .indexError
  | .arr (x :: _) => .ok x
  | .s v =>
    match v.toList with
    | [] => .error .indexError
    | c :: _ => .ok (.s (String.mk [c]))
  | .obj _ => .error .keyError
  | _ => .error .typeError

/-- Python truthiness of a value. -/
def truthy : J → Bool
  | .s v => decide (v ≠ "")
  | .i v => decide (v ≠ 0)
  | .b v => v
  | .null => false
  | .arr xs => !xs.isEmpty
  | .obj kvs => !kvs.isEmpty

/-- Python `x == lit` for a string literal `lit`. -/
def jIsStr : J → String → Bool
  | .s v, lit => decide (v = lit)
  | _, _ => false

/-- Python `x in [lit, ...]` for a list of string literals. -/
def jMemStrList (x : J) (lits : List String) : Bool :=
  lits.any (fun lit => jIsStr x lit)

/-- Python iteration `for x in v`: lists yield elements, strings yield
one-character strings, dictionaries yield their keys, TypeError otherwise. -/
def pyIter : J → Except PyErr (List J)
  | .arr xs => .ok xs
  | .s v => .ok (v.toList.map (fun c => .s (String.mk [c])))
  | .obj kvs => .ok (kvs.map (fun kv => .s kv.1))
  | _ => .error .typeError

/-- Python `d.values()`. -/
def pyValues : J → Except PyErr (List J)
  | .obj kvs => .ok (kvs.map (fun kv => kv.2))
  | _ => .error .attributeError

/-- Substring test on character lists, for Python `needle in someString`. -/
def hasSubstr (p : List Char) : List Char → Bool
  | [] => p.isEmpty
  | c :: rest => p.isPrefixOf (c :: rest) || hasSubstr p rest

/-- Python `k in v` for a string literal `k`: key membership for dictionaries,
element membership for lists, substring test for strings. -/
def pyInStr (k : String) : J → Except PyErr Bool
  | .obj kvs => .ok (jlookup kvs k).isSome
  | .arr xs => .ok (xs.any (fun x => jIsStr x k))
  | .s v => .ok (hasSubstr k.toList v.toList)
  | _ => .error .typeError

/-- Python `d.get(keyValue, default)` where the key is itself a runtime value:
unhashable keys (lists, dictionaries) raise TypeError, other non-string keys
are simply absent from the string-keyed dictionaries of this program. -/
def getKeyJ : J → J → J → Except PyErr J
  | .obj kvs, .s k, d => .ok ((jlookup kvs k).getD d)
  | .obj _, .arr _, _ => .error .typeError
  | .obj _, .obj _, _ => .error .typeError
  | .obj _, _, d => .ok d
  | _, _, _ => .error .attributeError

/-- Python `d[keyValue]` where the key is a runtime value; the script only
reaches this with string keys. -/
def subKeyJ : J → J → Except PyErr J
  | j, .s k => j.sub k
  | _, _ => .error .typeError

/-- Whitespace predicate used to model Python `str.strip()`. -/
def wsChar (c : Char) : Bool := c.isWhitespace

/-- Removal of leading and trailing whitespace on a character list. -/
def stripChars (l : List Char) : List Char :=
  (((l.dropWhile wsChar).reverse).dropWhile wsChar).reverse

/-- Python `s.strip()`. -/
def pyStrip (s : String) : String := String.mk (stripChars s.toList)

/-- Python `v.strip()` on a runtime value: AttributeError on non-strings. -/
def pyStripE : J → Except PyErr String
  | .s v => .ok (pyStrip v)
  | _ => .error .attributeError

/-- Characters of `" ".join(parts)`. -/
def joinSp : List (List Char) → List Char
  | [] => []
  | [x] => x
  | x :: y :: rest => x ++ ' ' :: joinSp (y :: rest)

/-- Python `" ".join(parts)`. -/
def pyJoinSpace (l : List String) : String := String.mk (joinSp (l.map String.toList))

/-- Python `s.lower()`, modelled character by character (the script only
compares the result with ASCII literals, for which this agrees with
Python). -/
def pyLower (s : String) : String := String.mk (s.toList.map Char.toLower)

/-! ## Embedded source functions -/

/-- Loop body of `extract_title`: iterate over the property values, return the
first-span content of the first property typed "title" (empty string when its
span list is falsy), `none` when no property is typed "title".  Any Python
exception surfaces as an `Except.error` and is caught by `extract_title`. -/
def extractTitleGo : List J → Except PyErr (Option J)
  | [] => .ok none
  | prop :: rest => do
    let ty ← prop.getD "type" J.null
    if jIsStr ty "title" then do
      let titleList ← prop.getD "title" (J.arr [])
      if truthy titleList then do
        let first ← titleList.subIdx0
        let tx ← first.sub "text"
        let c ← tx.sub "content"
        pure (some c)
      else pure (some (J.s ""))
    else extractTitleGo rest

/-- Translation of `extract_title(page)`: the whole scan sits inside
`try: ... except Exception: pass`, after which the sentinel "[Untitled]" is
returned, so the function is total. -/
def extract_title (page : J) : J :=
  match (do
      let props ← page.getD "properties" (J.obj [])
      let vals ← pyValues props
      extractTitleGo vals : Except PyErr (Option J)) with
  | .ok (some v) => v
  | .ok none => J.s "[Untitled]"
  | .error _ => J.s "[Untitled]"

/-- Translation of `is_untitled(page)`: `title.lower()` raises AttributeError
when the extracted title is not a string. -/
def is_untitled (page : J) : Except PyErr Bool :=
  match extract_title page with
  | .s t => .ok (jMemStrList (J.s (pyLower t)) ["", "untitled", "[untitled]"])
  | _ => .error .attributeError

/-- Boolean classification used to state what the untitled-page stream keeps;
it agrees with `is_untitled` whenever the latter does not raise. -/
def untitledB (p : J) : Bool :=
  match is_untitled p with
  | .ok b => b
  | .error _ => false

/-- Filtering performed by the generator loop of `stream_untitled_pages`. -/
def filterUntitled : List J → Except PyErr (List J)
  | [] => .ok []
  | p :: ps => do
    let b ← is_untitled p
    let rest ← filterUntitled ps
    pure (if b then p :: rest else rest)

/-- Translation of the `while True` pagination loop of
`stream_untitled_pages`.  The argument is the finite sequence of responses the
successive `notion.search` calls return; running past its end (a truthy cursor
with no further modelled response) is the `exhausted` error. -/
def streamGo : List J → Except PyErr (List J)
  | [] => .error .exhausted
  | r :: rest => do
    let res ← r.sub "results"
    let pages ← pyIter res
    let kept ← filterUntitled pages
    let cursor ← r.getD "next_cursor" J.null
    if truthy cursor then do
      let more ← streamGo rest
      pure (kept ++ more)
    else pure kept

/-- Translation of `stream_untitled_pages()` over a given response sequence;
the list it returns is the sequence of yielded pages. -/
def stream_untitled_pages (responses : List J) : Except PyErr (List J) :=
  streamGo responses

/-- Block types whose text `get_page_content_text` collects. -/
def qualTypes : List String := ["paragraph", "heading_1", "heading_2", "heading_3"]

/-- Inner loop of `get_page_content_text`: collect `t["text"]["content"]` of
every span with `t["type"] == "text"`. -/
def collectTexts : List J → Except PyErr (List J)
  | [] => .ok []
  | t :: ts => do
    let ty ← t.sub "type"
    if jIsStr ty "text" then do
      let tx ← t.sub "text"
      let c ← tx.sub "content"
      let rest ← collectTexts ts
      pure (c :: rest)
    else collectTexts ts

/-- Outer loop of `get_page_content_text` over the fetched blocks. -/
def gpctGo : List J → Except PyErr (List J)
  | [] => .ok []
  | block :: rest => do
    let bty ← block.sub "type"
    if jMemStrList bty qualTypes then do
      let bdata ← subKeyJ block bty
      let rt ← bdata.getD "rich_text" (J.arr [])
      let items ← pyIter rt
      let cs ← collectTexts items
      let later ← gpctGo rest
      pure (cs ++ later)
    else gpctGo rest

/-- Python `" ".join(text_content)` demands strings; a collected non-string
value raises TypeError at the join. -/
def listAsStr : List J → Except PyErr (List String)
  | [] => .ok []
  | .s v :: rest => do
    let tail ← listAsStr rest
    pure (v :: tail)
  | _ :: _ => .error .typeError

/-- Translation of `get_page_content_text(page_id)`; the argument is the block
list the `notion.blocks.children.list` call returned. -/
def get_page_content_text (blocks : List J) : Except PyErr String := do
  let cs ← gpctGo blocks
  let ss ← listAsStr cs
  pure (pyStrip (pyJoinSpace ss))

/-- Block types of the duplicated rich-text branch of `is_empty`. -/
def todoTypes : List String := ["to_do", "callout", "toggle", "quote", "code"]

/-- Always-visible block types of `is_empty`. -/
def visibleTypes : List String :=
  ["image", "video", "file", "embed", "equation",
   "pdf", "bookmark", "table", "table_row", "synced_block", "link_to_page"]

/-- Rich-text scan of `is_empty`: true when some span has
`rt.get("type") == "text"` and non-blank `rt["text"]["content"].strip()`.  The
source contains this loop twice (generic branch and to-do/callout/... branch)
with identical semantics, so the translation is shared. -/
def scanRT : List J → Except PyErr Bool
  | [] => .ok false
  | rt :: rest => do
    let ty ← rt.getD "type" J.null
    if jIsStr ty "text" then do
      let tx ← rt.sub "text"
      let c ← tx.sub "content"
      let stripped ← pyStripE c
      if stripped = "" then scanRT rest else pure true
    else scanRT rest

/-- Loop of `is_empty` over the fetched blocks, mirroring the if/elif chain of
the source: generic rich-text scan, duplicated to-do/callout/toggle/quote/code
branch, always-visible types, truthy-data catch-all. -/
def is_empty_go : List J → Except PyErr Bool
  | [] => .ok true
  | block :: rest => do
    let bty ← block.getD "type" J.null
    let bdata ← getKeyJ block bty (J.obj [])
    let hasRT ← pyInStr "rich_text" bdata
    if hasRT then do
      let rt ← bdata.sub "rich_text"
      let items ← pyIter rt
      let found ← scanRT items
      if found then pure false else is_empty_go rest
    else if jMemStrList bty todoTypes then do
      let hasRT2 ← pyInStr "rich_text" bdata
      if hasRT2 then do
        let rt ← bdata.sub "rich_text"
        let items ← pyIter rt
        let found ← scanRT items
        if found then pure false else is_empty_go rest
      else is_empty_go rest
    else if jMemStrList bty visibleTypes then pure false
    else if truthy bdata then pure false
    else is_empty_go rest

/-- Translation of `is_empty(page_id)`; the argument is the block list the
`notion.blocks.children.list` call returned. -/
def is_empty (blocks : List J) : Except PyErr Bool := is_empty_go blocks

/-- Variant of the `is_empty` loop with the duplicated
to-do/callout/toggle/quote/code branch collapsed into the generic rich-text
scan, as claim C4 proposes: those block types flow through the generic checks
and the catch-all. -/
def is_empty_collapsed_go : List J → Except PyErr Bool
  | [] => .ok true
  | block :: rest => do
    let bty ← block.getD "type" J.null
    let bdata ← getKeyJ block bty (J.obj [])
    let hasRT ← pyInStr "rich_text" bdata
    if hasRT then do
      let rt ← bdata.sub "rich_text"
      let items ← pyIter rt
      let found ← scanRT items
      if found then pure false else is_empty_collapsed_go rest
    else if jMemStrList bty visibleTypes then pure false
    else if truthy bdata then pure false
    else is_empty_collapsed_go rest

/-- Emptiness check with the duplicated branch removed (claim C4). -/
def is_empty_collapsed (blocks : List J) : Except PyErr Bool :=
  is_empty_collapsed_go blocks

/-- Translation of `suggest_title_llm(text, model)`.  The `requests.post` call
sits outside the `try` block in the source; its outcome is the outer `Except`
(an `Except.error` is an exception the call raised, which the function does
not catch).  The inner `Except` is the outcome of `response.json()`.  Only the
parse `response.json()["response"].strip()` is guarded by the `try`. -/
def suggest_title_llm (postOutcome : Except PyErr (Except PyErr J)) : Except PyErr String :=
  match postOutcome with
  | .error e => .error e
  | .ok jsonRes =>
    .ok (match (do
          let j ← jsonRes
          let r ← j.sub "response"
          pyStripE r : Except PyErr String) with
        | .ok s => s
        | .error _ => "[LLM error: no title]")

/-- Specification-side description of the guarded parse of
`suggest_title_llm`: the trimmed "response" field when present and a string,
the sentinel on any parse failure. -/
def parsedSuggestion (jsonRes : Except PyErr J) : String :=
  match jsonRes with
  | .error _ => "[LLM error: no title]"
  | .ok j =>
    match j.sub "response" with
    | .ok (J.s c) => pyStrip c
    | _ => "[LLM error: no title]"

/-! ## Command-line arguments and per-page dispatch -/

/-- Parsed command-line flags of the script. -/
structure Args where
  auto_apply : Bool
  confirm_delete : Bool
  deriving DecidableEq

/-- Defaults declared by argparse: `--auto-apply` is `store_true` (default
False), `--confirm-delete` is `store_true` with an explicit `default=True`. -/
def defaultArgs : Args := { auto_apply := false, confirm_delete := true }

/-- Argument-parsing loop: each recognised flag stores True, any other token
is rejected.  Argparse prefix abbreviations and `--help` are abstracted away;
they add accepted spellings but store the same values. -/
def parseArgsGo : List String → Args → Option Args
  | [], acc => some acc
  | tok :: rest, acc =>
    if tok = "--auto-apply" then parseArgsGo rest { acc with auto_apply := true }
    else if tok = "--confirm-delete" then parseArgsGo rest { acc with confirm_delete := true }
    else none

/-- Translation of `parser.parse_args()` on a given command line. -/
def parse_args (argv : List String) : Option Args := parseArgsGo argv defaultArgs

/-- Externally observable calls and prompts one loop iteration issues. -/
inductive PAction where
  | suggestRequest (text : String)
  | promptDelete
  | deleteBlock (pageId : String)
  | promptApply
  | updatePage (pageId : String) (props : J)

/-- Recogniser for title-update calls. -/
def isUpdateAction : PAction → Bool
  | .updatePage _ _ => true
  | _ => false

/-- Recogniser for suggestion requests. -/
def isSuggestAction : PAction → Bool
  | .suggestRequest _ => true
  | _ => false

/-- Recogniser for deletion prompts. -/
def isPromptDelete : PAction → Bool
  | .promptDelete => true
  | _ => false

/-- Title payload of `notion.pages.update` in the source:
`{"title": {"title": [{"text": {"content": suggested_title}}]}}`. -/
def titleUpdateProps (t : String) : J :=
  J.obj [("title", J.obj [("title",
    J.arr [J.obj [("text", J.obj [("content", J.s t)])]])])]

/-- Python `input(...).strip().lower() == "yes"`. -/
def answerYes (ans : String) : Bool := decide (pyLower (pyStrip ans) = "yes")

/-- One iteration of the `__main__` loop after the page facts are known:
`emptyPage` is the `is_empty` verdict, `rawText` the extracted text,
`llmTitle` the string `suggest_title_llm` returned (requested only when
`rawText` is truthy, else the suggestion is "[No content]"), and the two
answer strings are what `input()` would return at each prompt.  The result
lists the externally visible calls and prompts in order. -/
def processPage (args : Args) (pageId : String) (emptyPage : Bool)
    (rawText llmTitle deleteAns applyAns : String) : List PAction :=
  let sugActs := if rawText = "" then [] else [PAction.suggestRequest rawText]
  let suggested := if rawText = "" then "[No content]" else llmTitle
  sugActs ++
    (if emptyPage && args.confirm_delete then
      PAction.promptDelete ::
        (if answerYes deleteAns then [PAction.deleteBlock pageId] else [])
    else if suggested = "" then []
    else if args.auto_apply then [PAction.updatePage pageId (titleUpdateProps suggested)]
    else
      PAction.promptApply ::
        (if answerYes applyAns then [PAction.updatePage pageId (titleUpdateProps suggested)]
         else []))

/-- One iteration of the `__main__` loop starting from the fetched block list:
text extraction and the emptiness check run on the same blocks, then the
actions of `processPage` follow. -/
def processPageOnBlocks (args : Args) (pageId : String) (blocks : List J)
    (llmTitle deleteAns applyAns : String) : Except PyErr (List PAction) := do
  let raw ← get_page_content_text blocks
  let e ← is_empty blocks
  pure (processPage args pageId e raw llmTitle deleteAns applyAns)

/-! ## Well-formed data families

The claims quantify over the data the Notion API returns.  The structures
below describe the well-formed shapes of that data; `spanToJ`, `blockToJ`,
`propToJ`, `pageToJ` and `srToJ` inject them into the raw `J` values the
embedded code consumes.  Malformed shapes are exercised through dedicated
constructors (`TProp.badShape`, `TProp.titledBad`) and through raw `J`
inputs. -/

/-- Rich-text span: a type tag and the content of its "text" payload. -/
structure TSpan where
  ty : String
  content : String
  deriving DecidableEq

/-- Raw form of a span. -/
def spanToJ (sp : TSpan) : J :=
  J.obj [("type", J.s sp.ty), ("text", J.obj [("content", J.s sp.content)])]

/-- Top-level block: a type tag and its type-specific data, which carries a
"rich_text" span list when `hasRich` and further entries when `extraData`. -/
structure TBlock where
  ty : String
  hasRich : Bool
  spans : List TSpan
  extraData : Bool
  deriving DecidableEq

/-- Raw form of the type-specific data of a block. -/
def dataJ (bl : TBlock) : J :=
  J.obj ((if bl.hasRich then [("rich_text", J.arr (bl.spans.map spanToJ))] else []) ++
         (if bl.extraData then [("extra", J.b true)] else []))

/-- Raw form of a block: the type tag plus the data stored under the type
key.  A faithful image of a Python dict needs `bl.ty ≠ "type"`. -/
def blockToJ (bl : TBlock) : J := J.obj [("type", J.s bl.ty), (bl.ty, dataJ bl)]

/-- Span carrying non-blank "text"-variant content. -/
def spanNonBlank (sp : TSpan) : Bool :=
  decide (sp.ty = "text") && decide (pyStrip sp.content ≠ "")

/-- Block carrying non-blank "text"-variant rich-text content. -/
def blockHasText (bl : TBlock) : Bool := bl.hasRich && bl.spans.any spanNonBlank

/-- Truthiness of the type-specific data of a block. -/
def dataTruthyT (bl : TBlock) : Bool := bl.hasRich || bl.extraData

/-- Per-block condition under which the `is_empty` scan moves on to the next
block, following the branch order of the source: a block whose data carries a
"rich_text" key is judged solely by that span list; otherwise the
to-do/callout/toggle/quote/code branch ignores the block; otherwise the
always-visible set and the truthy-data catch-all decide. -/
def blockKeepsEmptyT (bl : TBlock) : Bool :=
  if bl.hasRich then !(bl.spans.any spanNonBlank)
  else if jMemStrList (J.s bl.ty) todoTypes then true
  else if jMemStrList (J.s bl.ty) visibleTypes then false
  else !(dataTruthyT bl)

/-- Per-block condition of the collapsed check of claim C4. -/
def blockKeepsEmptyCollapsedT (bl : TBlock) : Bool :=
  if bl.hasRich then !(bl.spans.any spanNonBlank)
  else if jMemStrList (J.s bl.ty) visibleTypes then false
  else !(dataTruthyT bl)

/-- Block classified non-empty by claim C2 as stated: non-blank text, or a
type in the always-visible set, or (catch-all) non-empty type-specific data
matching none of the earlier checks. -/
def claimBlockNonEmpty (bl : TBlock) : Bool :=
  blockHasText bl || jMemStrList (J.s bl.ty) visibleTypes ||
    (dataTruthyT bl && !(blockHasText bl || jMemStrList (J.s bl.ty) visibleTypes))

/-- Page-level emptiness as claim C2 states it. -/
def claimEmpty (bs : List TBlock) : Bool := bs.all (fun bl => !claimBlockNonEmpty bl)

/-- Contents claim C7 says one block contributes: every "text"-variant span
content of a paragraph/heading block, in order. -/
def blockContents (bl : TBlock) : List String :=
  if jMemStrList (J.s bl.ty) qualTypes then
    ((if bl.hasRich then bl.spans else []).filter
      (fun sp => decide (sp.ty = "text"))).map (fun sp => sp.content)
  else []

/-- Contents claim C7 says a block list contributes, in order. -/
def declContents (bs : List TBlock) : List String := bs.flatMap blockContents

/-- Page property as `extract_title` meets it: a well-formed title property
with its span contents, a title property with a malformed span sequence, a
property of another type, or a property whose shape raises on access. -/
inductive TProp where
  | titled (spans : List String)
  | titledBad
  | nonTitle (ty : String)
  | badShape
  deriving DecidableEq

/-- Raw form of a property. -/
def propToJ : TProp → J
  | .titled spans =>
    J.obj [("type", J.s "title"),
      ("title", J.arr (spans.map (fun c => J.obj [("text", J.obj [("content", J.s c)])])))]
  | .titledBad => J.obj [("type", J.s "title"), ("title", J.s "x")]
  | .nonTitle ty => J.obj [("type", J.s ty)]
  | .badShape => J.arr []

/-- Validity of a property for the title scan: a non-title property must not
carry the tag "title". -/
def validTProp : TProp → Bool
  | .nonTitle ty => decide (ty ≠ "title")
  | _ => true

/-- Title resolution as claim C5 states it: the scan stops at the first
property typed "title" (content of its first span, or "" when the span list is
empty, or the sentinel when its shape is malformed), stops with the sentinel
at a property whose shape raises, and falls back to the sentinel when no title
property exists. -/
def titleSpecT : List TProp → String
  | [] => "[Untitled]"
  | .titled [] :: _ => ""
  | .titled (c :: _) :: _ => c
  | .titledBad :: _ => "[Untitled]"
  | .badShape :: _ => "[Untitled]"
  | .nonTitle _ :: rest => titleSpecT rest

/-- Distinct keys for the properties dictionary of a page. -/
def withKeys : Nat → List J → List (String × J)
  | _, [] => []
  | n, x :: xs => ("p" ++ toString n, x) :: withKeys (n + 1) xs

/-- Raw form of a page with the given property list. -/
def pageToJ (ps : List TProp) : J :=
  J.obj [("properties", J.obj (withKeys 0 (ps.map propToJ)))]

/-- One paginated search response: its page list and its continuation
cursor. -/
structure SResp where
  results : List J
  next_cursor : J

/-- Raw form of a search response. -/
def srToJ (r : SResp) : J :=
  J.obj [("results", J.arr r.results), ("next_cursor", r.next_cursor)]

/-- Terminating cursor chain: every response except the last supplies a truthy
continuation cursor and the last one does not, which is how a finite search
result set presents itself. -/
def cursorChainB : List SResp → Bool
  | [] => false
  | [r] => !truthy r.next_cursor
  | r :: rest => truthy r.next_cursor && cursorChainB rest

/-! ## Monad reduction lemmas -/

theorem except_bind_ok {α β : Type} (a : α) (f : α → Except PyErr β) :
    (Except.ok a >>= f : Except PyErr β) = f a := rfl

theorem except_bind_error {α β : Type} (e : PyErr) (f : α → Except PyErr β) :
    (Except.error e >>= f : Except PyErr β) = Except.error e := rfl

theorem except_pure {α : Type} (a : α) : (pure a : Except PyErr α) = Except.ok a := rfl

theorem withKeys_values (n : Nat) (l : List J) :
    (withKeys n l).map (fun kv => kv.2) = l := by
  induction l generalizing n with
  | nil => rfl
  | cons x xs ih => simp [withKeys, ih]

/-! ## Claim C1: error handling of the title-suggestion call -/

/-- Counterexample to claim C1 as stated: when the `requests.post` call itself
fails (a network error), `suggest_title_llm` propagates the exception instead
of returning the sentinel, because the POST sits outside the `try` block. -/
theorem suggest_title_llm_network_error_propagates :
    suggest_title_llm (Except.error PyErr.connectionError) =
      Except.error PyErr.connectionError ∧
    suggest_title_llm (Except.error PyErr.connectionError) ≠
      Except.ok "[LLM error: no title]" := by
  refine ⟨rfl, fun h => Except.noConfusion h⟩

/-- Amended claim C1: once the HTTP request itself has returned, the function
always produces a string and swallows every failure of response parsing
(malformed JSON body, missing "response" field, non-string field) into the
sentinel "[LLM error: no title]", returning the trimmed field otherwise; only
a failure of the request itself propagates. -/
theorem suggest_title_llm_parse_guarded (jsonRes : Except PyErr J) :
    suggest_title_llm (Except.ok jsonRes) = Except.ok (parsedSuggestion jsonRes) := by
  cases jsonRes with
  | error e => rfl
  | ok j =>
    cases hj : j.sub "response" with
    | error e =>
      simp [suggest_title_llm, parsedSuggestion, hj, except_bind_ok, except_bind_error]
    | ok r =>
      cases r <;>
        simp [suggest_title_llm, parsedSuggestion, hj, except_bind_ok, except_bind_error,
          pyStripE]

/-! ## Claim C3: the deletion-confirmation flag can never be disabled -/

theorem parseArgsGo_confirm (argv : List String) : ∀ acc : Args,
    acc.confirm_delete = true → ∀ res, parseArgsGo argv acc = some res →
    res.confirm_delete = true := by
  induction argv with
  | nil =>
    intro acc hacc res h
    simp only [parseArgsGo, Option.some.injEq] at h
    exact h ▸ hacc
  | cons tok rest ih =>
    intro acc hacc res h
    simp only [parseArgsGo] at h
    by_cases h1 : tok = "--auto-apply"
    · rw [if_pos h1] at h
      exact ih { acc with auto_apply := true } hacc res h
    · rw [if_neg h1] at h
      by_cases h2 : tok = "--confirm-delete"
      · rw [if_pos h2] at h
        exact ih _ rfl res h
      · rw [if_neg h2] at h
        exact Option.noConfusion h

/-- Claim C3: every accepted command line parses with `confirm_delete = true`
(the flag is `store_true` with `default=True`), so the dispatch condition
`is_empty and confirm_delete` reduces to the emptiness verdict alone. -/
theorem confirm_delete_always_true (argv : List String) (args : Args)
    (h : parse_args argv = some args) :
    args.confirm_delete = true ∧ ∀ e : Bool, (e && args.confirm_delete) = e := by
  have hc := parseArgsGo_confirm argv defaultArgs rfl args h
  exact ⟨hc, fun e => by rw [hc, Bool.and_true]⟩

/-- Witness for claim C3 at the concrete command line `--auto-apply`. -/
theorem confirm_delete_always_true_witness :
    ({ auto_apply := true, confirm_delete := true } : Args).confirm_delete = true ∧
    (true && ({ auto_apply := true, confirm_delete := true } : Args).confirm_delete) = true := by
  have h := confirm_delete_always_true ["--auto-apply"]
    { auto_apply := true, confirm_delete := true } rfl
  exact ⟨h.1, h.2 true⟩

/-! ## Claim C5: title resolution -/

theorem extractTitleGo_spec : ∀ ps : List TProp, (∀ p ∈ ps, validTProp p = true) →
    (extractTitleGo (ps.map propToJ) = .ok none ∧ titleSpecT ps = "[Untitled]") ∨
    (∃ e, extractTitleGo (ps.map propToJ) = .error e ∧ titleSpecT ps = "[Untitled]") ∨
    extractTitleGo (ps.map propToJ) = .ok (some (J.s (titleSpecT ps))) := by
  intro ps
  induction ps with
  | nil => intro _; exact Or.inl ⟨rfl, rfl⟩
  | cons p rest ih =>
    intro h
    cases p with
    | titled spans =>
      cases spans with
      | nil =>
        refine Or.inr (Or.inr ?_)
        simp [extractTitleGo, propToJ, J.getD, jlookup, jIsStr, truthy,
          except_bind_ok, except_pure, titleSpecT]
      | cons c cs =>
        refine Or.inr (Or.inr ?_)
        simp [extractTitleGo, propToJ, J.getD, jlookup, jIsStr, truthy,
          J.subIdx0, J.sub, except_bind_ok, except_pure, titleSpecT]
    | titledBad =>
      refine Or.inr (Or.inl ⟨PyErr.typeError, ?_, rfl⟩)
      simp [extractTitleGo, propToJ, J.getD, jlookup, jIsStr, truthy,
        J.subIdx0, J.sub, except_bind_ok, except_bind_error, except_pure]
    | nonTitle ty =>
      have hty : ty ≠ "title" := by
        have := h (.nonTitle ty) (List.mem_cons_self _ _)
        simpa [validTProp] using this
      have hrec := ih (fun q hq => h q (List.mem_cons_of_mem _ hq))
      have hred : extractTitleGo ((TProp.nonTitle ty :: rest).map propToJ) =
          extractTitleGo (rest.map propToJ) := by
        simp [extractTitleGo, propToJ, J.getD, jlookup, jIsStr, hty,
          except_bind_ok]
      rw [hred]
      simpa [titleSpecT] using hrec
    | badShape =>
      refine Or.inr (Or.inl ⟨PyErr.attributeError, ?_, rfl⟩)
      simp [extractTitleGo, propToJ, J.getD, except_bind_error]

/-- Claim C5: title resolution never raises outward (the translation is a
total function into strings on this family) and scans the properties in order
for the one typed "title": a non-empty span list yields the first span
content, an empty one yields "", and a malformed shape or the absence of any
title property yields the sentinel "[Untitled]". -/
theorem extract_title_scan (ps : List TProp) (h : ∀ p ∈ ps, validTProp p = true) :
    extract_title (pageToJ ps) = J.s (titleSpecT ps) := by
  have hpre : (do
      let props ← (pageToJ ps).getD "properties" (J.obj [])
      let vals ← pyValues props
      extractTitleGo vals : Except PyErr (Option J)) =
      extractTitleGo (ps.map propToJ) := by
    simp [pageToJ, J.getD, jlookup, pyValues, except_bind_ok, withKeys_values]
  rcases extractTitleGo_spec ps h with ⟨h1, h2⟩ | ⟨e, h1, h2⟩ | h1
  · simp [extract_title, hpre, h1, h2]
  · simp [extract_title, hpre, h1, h2]
  · simp [extract_title, hpre, h1]

/-- Witness for claim C5: a malformed property is skipped into the sentinel,
while a well-formed page resolves to its first title span. -/
theorem extract_title_scan_witness :
    extract_title (pageToJ [TProp.nonTitle "select", TProp.titled ["My note", "x"]]) =
      J.s "My note" := by
  have h := extract_title_scan [TProp.nonTitle "select", TProp.titled ["My note", "x"]]
    (by decide)
  simpa [titleSpecT] using h

/-! ## Claim C6: the untitled classifier -/

/-- Claim C6: for every page whose title resolves to a string, the page is
classified untitled exactly when the lowercased title is "", "untitled" or
"[untitled]", and the classifier answers (it never raises) on such pages. -/
theorem is_untitled_iff (page : J) (t : String) (h : extract_title page = J.s t) :
    (is_untitled page = Except.ok true ↔
      (pyLower t = "" ∨ pyLower t = "untitled" ∨ pyLower t = "[untitled]")) ∧
    (is_untitled page = Except.ok false ↔
      ¬(pyLower t = "" ∨ pyLower t = "untitled" ∨ pyLower t = "[untitled]")) := by
  have hrw : is_untitled page =
      Except.ok (jMemStrList (J.s (pyLower t)) ["", "untitled", "[untitled]"]) := by
    simp [is_untitled, h]
  constructor
  · rw [hrw]
    simp [jMemStrList, jIsStr]
  · rw [hrw]
    simp [jMemStrList, jIsStr]

/-- Witness for claim C6: the page resolving to "[Untitled]" is classified
untitled, instantiating the classifier equivalence at a concrete page. -/
theorem is_untitled_iff_witness : is_untitled (J.obj []) = Except.ok true :=
  (is_untitled_iff (J.obj []) "[Untitled]" rfl).1.mpr (by right; right; decide)

/-! ## Claim C8: the untitled-page stream -/

theorem filterUntitled_spec : ∀ ps : List J,
    (∀ p ∈ ps, ∃ bv, is_untitled p = Except.ok bv) →
    filterUntitled ps = Except.ok (ps.filter untitledB) := by
  intro ps
  induction ps with
  | nil => intro _; rfl
  | cons p rest ih =>
    intro h
    obtain ⟨bv, hbv⟩ := h p (List.mem_cons_self _ _)
    have hrest := ih (fun q hq => h q (List.mem_cons_of_mem _ hq))
    have hub : untitledB p = bv := by simp [untitledB, hbv]
    cases bv with
    | false =>
      simp [filterUntitled, hbv, hrest, except_bind_ok, except_pure,
        List.filter_cons, hub]
    | true =>
      simp [filterUntitled, hbv, hrest, except_bind_ok, except_pure,
        List.filter_cons, hub]

theorem streamGo_cons (r : SResp) (l : List J) :
    streamGo (srToJ r :: l) = (do
      let kept ← filterUntitled r.results
      if truthy r.next_cursor then do
        let more ← streamGo l
        pure (kept ++ more)
      else pure kept : Except PyErr (List J)) := by
  simp [streamGo, srToJ, J.sub, J.getD, jlookup, pyIter, except_bind_ok]

theorem streamGo_spec : ∀ rs : List SResp, cursorChainB rs = true →
    (∀ r ∈ rs, ∀ p ∈ r.results, ∃ bv, is_untitled p = Except.ok bv) →
    streamGo (rs.map srToJ) =
      Except.ok ((rs.flatMap (fun r => r.results)).filter untitledB) := by
  intro rs
  induction rs with
  | nil => intro hchain _; exact absurd hchain (by simp [cursorChainB])
  | cons r rest ih =>
    intro hchain h
    have hkept := filterUntitled_spec r.results
      (fun p hp => h r (List.mem_cons_self _ _) p hp)
    rw [List.map_cons, streamGo_cons, hkept, except_bind_ok]
    cases rest with
    | nil =>
      have hcur : truthy r.next_cursor = false := by
        simpa [cursorChainB] using hchain
      simp [hcur, except_pure]
    | cons r2 rest2 =>
      have hcur : truthy r.next_cursor = true := by
        simp [cursorChainB] at hchain
        exact hchain.1
      have hchain2 : cursorChainB (r2 :: rest2) = true := by
        simp [cursorChainB] at hchain
        simpa [cursorChainB] using hchain.2
      have hrec := ih hchain2 (fun q hq p hp => h q (List.mem_cons_of_mem _ hq) p hp)
      rw [if_pos hcur, hrec, except_bind_ok]
      simp [except_pure, List.filter_append]

/-- Claim C8: on every finite response sequence whose cursor chain terminates
(each response hands a truthy cursor to the next and the last supplies none)
and whose pages the classifier can resolve, the pagination loop terminates
(the translation is structurally recursive on the response list) and yields
exactly the pages, in order, that `is_untitled` classifies as untitled. -/
theorem stream_untitled_pages_spec (rs : List SResp)
    (hchain : cursorChainB rs = true)
    (h : ∀ r ∈ rs, ∀ p ∈ r.results, ∃ bv, is_untitled p = Except.ok bv) :
    stream_untitled_pages (rs.map srToJ) =
      Except.ok ((rs.flatMap (fun r => r.results)).filter untitledB) :=
  streamGo_spec rs hchain h

/-- Witness for claim C8: two responses, the first with a truthy cursor; the
untitled page (empty properties) is yielded, the titled one is not. -/
theorem stream_untitled_pages_spec_witness :
    stream_untitled_pages
      [srToJ ⟨[pageToJ []], J.s "cur1"⟩,
       srToJ ⟨[pageToJ [TProp.titled ["Kept title"]]], J.null⟩] =
      Except.ok [pageToJ []] := by
  have h := stream_untitled_pages_spec
    [⟨[pageToJ []], J.s "cur1"⟩, ⟨[pageToJ [TProp.titled ["Kept title"]]], J.null⟩]
    (by decide)
    (by
      intro r hr p hp
      simp only [List.mem_cons, List.not_mem_nil, or_false] at hr
      rcases hr with hr | hr
      · subst hr
        simp only [List.mem_singleton] at hp
        subst hp
        exact ⟨true, rfl⟩
      · subst hr
        simp only [List.mem_singleton] at hp
        subst hp
        exact ⟨false, rfl⟩)
  exact h.trans rfl

/-! ## Evaluation of the emptiness check on well-formed blocks -/

theorem scanRT_spec : ∀ spans : List TSpan,
    scanRT (spans.map spanToJ) = Except.ok (spans.any spanNonBlank) := by
  intro spans
  induction spans with
  | nil => rfl
  | cons sp rest ih =>
    by_cases hty : sp.ty = "text"
    · by_cases hc : pyStrip sp.content = ""
      · simp [scanRT, spanToJ, J.getD, jlookup, jIsStr, hty, J.sub, pyStripE, hc,
          except_bind_ok, ih, List.any_cons, spanNonBlank]
      · simp [scanRT, spanToJ, J.getD, jlookup, jIsStr, hty, J.sub, pyStripE, hc,
          except_bind_ok, except_pure, List.any_cons, spanNonBlank]
    · simp [scanRT, spanToJ, J.getD, jlookup, jIsStr, hty, except_bind_ok, ih,
        List.any_cons, spanNonBlank]

theorem blockToJ_type (bl : TBlock) :
    (blockToJ bl).getD "type" J.null = Except.ok (J.s bl.ty) := by
  simp [blockToJ, J.getD, jlookup]

theorem blockToJ_data (bl : TBlock) (hty : bl.ty ≠ "type") :
    getKeyJ (blockToJ bl) (J.s bl.ty) (J.obj []) = Except.ok (dataJ bl) := by
  simp [blockToJ, getKeyJ, jlookup, Ne.symm hty]

theorem dataJ_hasRT (bl : TBlock) :
    pyInStr "rich_text" (dataJ bl) = Except.ok bl.hasRich := by
  cases hR : bl.hasRich <;> cases hE : bl.extraData <;>
    simp [dataJ, pyInStr, jlookup, hR, hE]

theorem is_empty_go_cons (bl : TBlock) (l : List J) (hty : bl.ty ≠ "type") :
    is_empty_go (blockToJ bl :: l) =
      if blockKeepsEmptyT bl then is_empty_go l else Except.ok false := by
  cases hR : bl.hasRich
  · by_cases hT : jMemStrList (J.s bl.ty) todoTypes = true
    · simp [is_empty_go, blockToJ_type, blockToJ_data bl hty, dataJ_hasRT, hR, hT,
        except_bind_ok, blockKeepsEmptyT]
    · by_cases hV : jMemStrList (J.s bl.ty) visibleTypes = true
      · simp [is_empty_go, blockToJ_type, blockToJ_data bl hty, dataJ_hasRT, hR, hT, hV,
          except_bind_ok, except_pure, blockKeepsEmptyT]
      · cases hE : bl.extraData
        · simp [is_empty_go, blockToJ_type, blockToJ_data bl hty, dataJ_hasRT, hR, hT, hV,
            except_bind_ok, except_pure, blockKeepsEmptyT, truthy, dataJ, hE, dataTruthyT,
            pyInStr, jlookup]
        · simp [is_empty_go, blockToJ_type, blockToJ_data bl hty, dataJ_hasRT, hR, hT, hV,
            except_bind_ok, except_pure, blockKeepsEmptyT, truthy, dataJ, hE, dataTruthyT,
            pyInStr, jlookup]
  · have hsub : (dataJ bl).sub "rich_text" = Except.ok (J.arr (bl.spans.map spanToJ)) := by
      cases hE : bl.extraData <;> simp [dataJ, J.sub, jlookup, hR, hE]
    cases hA : bl.spans.any spanNonBlank
    · simp [is_empty_go, blockToJ_type, blockToJ_data bl hty, dataJ_hasRT, hR, hsub,
        pyIter, scanRT_spec, hA, except_bind_ok, blockKeepsEmptyT]
    · simp [is_empty_go, blockToJ_type, blockToJ_data bl hty, dataJ_hasRT, hR, hsub,
        pyIter, scanRT_spec, hA, except_bind_ok, except_pure, blockKeepsEmptyT]

theorem is_empty_toJ : ∀ bs : List TBlock, (∀ bl ∈ bs, bl.ty ≠ "type") →
    is_empty (bs.map blockToJ) = Except.ok (bs.all blockKeepsEmptyT) := by
  intro bs
  induction bs with
  | nil => intro _; rfl
  | cons bl rest ih =>
    intro h
    have hty := h bl (List.mem_cons_self _ _)
    have hrest := ih (fun q hq => h q (List.mem_cons_of_mem _ hq))
    rw [List.map_cons]
    show is_empty_go (blockToJ bl :: rest.map blockToJ) = _
    rw [is_empty_go_cons bl _ hty]
    cases hK : blockKeepsEmptyT bl
    · simp [hK, List.all_cons]
    · simpa [hK, List.all_cons] using hrest

theorem is_empty_collapsed_go_cons (bl : TBlock) (l : List J) (hty : bl.ty ≠ "type") :
    is_empty_collapsed_go (blockToJ bl :: l) =
      if blockKeepsEmptyCollapsedT bl then is_empty_collapsed_go l else Except.ok false := by
  cases hR : bl.hasRich
  · by_cases hV : jMemStrList (J.s bl.ty) visibleTypes = true
    · simp [is_empty_collapsed_go, blockToJ_type, blockToJ_data bl hty, dataJ_hasRT, hR, hV,
        except_bind_ok, except_pure, blockKeepsEmptyCollapsedT]
    · cases hE : bl.extraData
      · simp [is_empty_collapsed_go, blockToJ_type, blockToJ_data bl hty, dataJ_hasRT, hR, hV,
          except_bind_ok, except_pure, blockKeepsEmptyCollapsedT, truthy, dataJ, hE, dataTruthyT,
          pyInStr, jlookup]
      · simp [is_empty_collapsed_go, blockToJ_type, blockToJ_data bl hty, dataJ_hasRT, hR, hV,
          except_bind_ok, except_pure, blockKeepsEmptyCollapsedT, truthy, dataJ, hE, dataTruthyT,
          pyInStr, jlookup]
  · have hsub : (dataJ bl).sub "rich_text" = Except.ok (J.arr (bl.spans.map spanToJ)) := by
      cases hE : bl.extraData <;> simp [dataJ, J.sub, jlookup, hR, hE]
    cases hA : bl.spans.any spanNonBlank
    · simp [is_empty_collapsed_go, blockToJ_type, blockToJ_data bl hty, dataJ_hasRT, hR, hsub,
        pyIter, scanRT_spec, hA, except_bind_ok, blockKeepsEmptyCollapsedT]
    · simp [is_empty_collapsed_go, blockToJ_type, blockToJ_data bl hty, dataJ_hasRT, hR, hsub,
        pyIter, scanRT_spec, hA, except_bind_ok, except_pure, blockKeepsEmptyCollapsedT]

theorem is_empty_collapsed_toJ : ∀ bs : List TBlock, (∀ bl ∈ bs, bl.ty ≠ "type") →
    is_empty_collapsed (bs.map blockToJ) = Except.ok (bs.all blockKeepsEmptyCollapsedT) := by
  intro bs
  induction bs with
  | nil => intro _; rfl
  | cons bl rest ih =>
    intro h
    have hty := h bl (List.mem_cons_self _ _)
    have hrest := ih (fun q hq => h q (List.mem_cons_of_mem _ hq))
    rw [List.map_cons]
    show is_empty_collapsed_go (blockToJ bl :: rest.map blockToJ) = _
    rw [is_empty_collapsed_go_cons bl _ hty]
    cases hK : blockKeepsEmptyCollapsedT bl
    · simp [hK, List.all_cons]
    · simpa [hK, List.all_cons] using hrest

/-! ## Claim C2: characterisation of the emptiness check -/

/-- Counterexample to claim C2 as stated: a block of the always-visible type
"image" whose type-specific data happens to carry a (empty) "rich_text" entry
is consumed by the generic rich-text branch, so the always-visible check never
runs and `is_empty` answers true, while the claim requires false because the
block type belongs to the always-visible set. -/
theorem is_empty_claim_iff_fails :
    is_empty [blockToJ ⟨"image", true, [], false⟩] = Except.ok true ∧
    claimEmpty [⟨"image", true, [], false⟩] = false := ⟨rfl, rfl⟩

/-- Amended claim C2: `is_empty` answers true iff every top-level block passes
the branch-ordered check of the source — a block whose type-specific data
carries a "rich_text" key is judged solely by that span list (no non-blank
"text"-variant span), the always-visible and catch-all checks applying only to
blocks without such a key, the to-do/callout/toggle/quote/code types being
ignored there; in particular a page of blocks holding only blank text spans
still classifies as empty. -/
theorem is_empty_branch_order_iff (bs : List TBlock)
    (h : ∀ bl ∈ bs, bl.ty ≠ "type") :
    is_empty (bs.map blockToJ) = Except.ok true ↔
      ∀ bl ∈ bs, blockKeepsEmptyT bl = true := by
  rw [is_empty_toJ bs h]
  simp [List.all_eq_true]

/-- Witness for claim C2: a paragraph holding only a blank text span (plus
extra data entries) classifies as empty. -/
theorem is_empty_branch_order_iff_witness :
    is_empty (([⟨"paragraph", true, [⟨"text", " "⟩], true⟩] : List TBlock).map blockToJ) =
      Except.ok true :=
  (is_empty_branch_order_iff [⟨"paragraph", true, [⟨"text", " "⟩], true⟩]
    (by decide)).mpr (by decide)

/-! ## Claim C4: the duplicated branch is not removable wholesale -/

theorem all_congr_bool {α : Type} (f g : α → Bool) :
    ∀ l : List α, (∀ x ∈ l, f x = g x) → l.all f = l.all g := by
  intro l
  induction l with
  | nil => intro _; rfl
  | cons x xs ih =>
    intro h
    simp [List.all_cons, h x (List.mem_cons_self _ _),
      ih (fun y hy => h y (List.mem_cons_of_mem _ hy))]

theorem todo_not_visible (ty : String)
    (h : jMemStrList (J.s ty) todoTypes = true) :
    jMemStrList (J.s ty) visibleTypes = false := by
  simp [jMemStrList, todoTypes, jIsStr, List.any_cons, List.any_nil] at h
  rcases h with h | h | h | h | h <;> subst h <;> decide

theorem keeps_collapsed_eq (bl : TBlock)
    (h : jMemStrList (J.s bl.ty) todoTypes = true → (bl.hasRich || !bl.extraData) = true) :
    blockKeepsEmptyCollapsedT bl = blockKeepsEmptyT bl := by
  cases hR : bl.hasRich
  · by_cases hT : jMemStrList (J.s bl.ty) todoTypes = true
    · have hv := todo_not_visible bl.ty hT
      have hE : bl.extraData = false := by
        have h2 := h hT
        rw [hR] at h2
        simpa using h2
      simp [blockKeepsEmptyT, blockKeepsEmptyCollapsedT, hR, hT, hv, dataTruthyT, hE]
    · simp [blockKeepsEmptyT, blockKeepsEmptyCollapsedT, hR, hT]
  · simp [blockKeepsEmptyT, blockKeepsEmptyCollapsedT, hR]

/-- Counterexample to claim C4 as stated: a to-do block whose data carries no
"rich_text" key but is non-empty.  The duplicated branch matches its type and
moves on (the page stays empty), while with the branch collapsed the block
falls through to the truthy-data catch-all and is declared visible — so the
two checks are not equal on every block list and removal changes behaviour. -/
theorem is_empty_collapse_changes_behaviour :
    is_empty [blockToJ ⟨"to_do", false, [], true⟩] = Except.ok true ∧
    is_empty_collapsed [blockToJ ⟨"to_do", false, [], true⟩] = Except.ok false :=
  ⟨rfl, rfl⟩

/-- Amended claim C4: the duplicated branch body is indeed dead, yet the
branch guard shields the to-do/callout/toggle/quote/code types from the
catch-all, so collapsing it preserves behaviour exactly on block lists in
which every block of those types either carries a "rich_text" key in its data
or has empty (falsy) type-specific data — as real API payloads do. -/
theorem is_empty_collapse_equiv (bs : List TBlock)
    (h : ∀ bl ∈ bs, bl.ty ≠ "type")
    (h2 : ∀ bl ∈ bs, jMemStrList (J.s bl.ty) todoTypes = true →
      (bl.hasRich || !bl.extraData) = true) :
    is_empty_collapsed (bs.map blockToJ) = is_empty (bs.map blockToJ) := by
  rw [is_empty_toJ bs h, is_empty_collapsed_toJ bs h]
  exact congrArg Except.ok
    (all_congr_bool _ _ bs (fun bl hb => keeps_collapsed_eq bl (h2 bl hb)))

/-- Witness for claim C4: on a to-do block that does carry its rich-text list,
the collapsed and original checks agree. -/
theorem is_empty_collapse_equiv_witness :
    is_empty_collapsed (([⟨"to_do", true, [⟨"text", "task"⟩], false⟩] : List TBlock).map blockToJ) =
      is_empty (([⟨"to_do", true, [⟨"text", "task"⟩], false⟩] : List TBlock).map blockToJ) :=
  is_empty_collapse_equiv [⟨"to_do", true, [⟨"text", "task"⟩], false⟩]
    (by decide) (by decide)

/-! ## Claim C7: text extraction -/

theorem qual_ne_type (ty : String) (h : jMemStrList (J.s ty) qualTypes = true) :
    ty ≠ "type" := by
  simp [jMemStrList, qualTypes, jIsStr, List.any_cons, List.any_nil] at h
  rcases h with h | h | h | h <;> subst h <;> decide

theorem collectTexts_spec : ∀ spans : List TSpan,
    collectTexts (spans.map spanToJ) =
      Except.ok ((spans.filter (fun sp => decide (sp.ty = "text"))).map
        (fun sp => J.s sp.content)) := by
  intro spans
  induction spans with
  | nil => rfl
  | cons sp rest ih =>
    by_cases hty : sp.ty = "text"
    · simp [collectTexts, spanToJ, J.sub, jlookup, jIsStr, hty, except_bind_ok,
        except_pure, ih, List.filter_cons]
    · simp [collectTexts, spanToJ, J.sub, jlookup, jIsStr, hty, except_bind_ok,
        ih, List.filter_cons]

theorem gpctGo_toJ : ∀ bs : List TBlock,
    gpctGo (bs.map blockToJ) = Except.ok ((declContents bs).map J.s) := by
  intro bs
  induction bs with
  | nil => rfl
  | cons bl rest ih =>
    by_cases hq : jMemStrList (J.s bl.ty) qualTypes = true
    · have hty := qual_ne_type bl.ty hq
      have hsub : (blockToJ bl).sub "type" = Except.ok (J.s bl.ty) := by
        simp [blockToJ, J.sub, jlookup]
      have hdata : subKeyJ (blockToJ bl) (J.s bl.ty) = Except.ok (dataJ bl) := by
        simp [blockToJ, subKeyJ, J.sub, jlookup, Ne.symm hty]
      have hrt : (dataJ bl).getD "rich_text" (J.arr []) =
          Except.ok (J.arr ((if bl.hasRich then bl.spans else []).map spanToJ)) := by
        cases hR : bl.hasRich <;> cases hE : bl.extraData <;>
          simp [dataJ, J.getD, jlookup, hR, hE]
      rw [List.map_cons]
      simp [gpctGo, hsub, hq, hdata, hrt, pyIter,
        collectTexts_spec, ih, except_bind_ok, except_pure, declContents,
        List.flatMap_cons, blockContents, List.map_append, Function.comp]
    · have hsub : (blockToJ bl).sub "type" = Except.ok (J.s bl.ty) := by
        simp [blockToJ, J.sub, jlookup]
      rw [List.map_cons]
      simp [gpctGo, hsub, hq, ih, except_bind_ok,
        declContents, List.flatMap_cons, blockContents]

theorem listAsStr_spec : ∀ l : List String,
    listAsStr (l.map J.s) = Except.ok l := by
  intro l
  induction l with
  | nil => rfl
  | cons x xs ih => simp [listAsStr, ih, except_bind_ok, except_pure]

theorem gpct_toJ (bs : List TBlock) :
    get_page_content_text (bs.map blockToJ) =
      Except.ok (pyStrip (pyJoinSpace (declContents bs))) := by
  simp [get_page_content_text, gpctGo_toJ, listAsStr_spec, except_bind_ok, except_pure]

/-- Claim C7: on every well-formed block list, text extraction concatenates
every "text"-variant span content of paragraph/heading_1/heading_2/heading_3
blocks in order, joined by single spaces across all qualifying blocks and
spans, then trims surrounding whitespace; with no qualifying text it returns
the empty string. -/
theorem get_page_content_text_spec (bs : List TBlock) :
    get_page_content_text (bs.map blockToJ) =
      Except.ok (pyStrip (pyJoinSpace (declContents bs))) ∧
    (declContents bs = [] →
      get_page_content_text (bs.map blockToJ) = Except.ok "") := by
  refine ⟨gpct_toJ bs, fun hnil => ?_⟩
  rw [gpct_toJ bs, hnil]
  rfl

/-- Witness for claim C7: a divider-like block with non-empty data but no
qualifying type contributes nothing, and extraction returns "". -/
theorem get_page_content_text_spec_witness :
    get_page_content_text (([⟨"divider", false, [], true⟩] : List TBlock).map blockToJ) =
      Except.ok "" :=
  (get_page_content_text_spec [⟨"divider", false, [], true⟩]).2 rfl

/-! ## Non-blank extracted text forces a non-empty classification -/

theorem mk_eq_empty_iff (l : List Char) : String.mk l = "" ↔ l = [] := by
  constructor
  · intro h
    have h2 : String.mk l = String.mk [] := h
    injection h2
  · intro h
    rw [h]

theorem all_of_dropWhile_all (p : Char → Bool) (l : List Char)
    (h : ∀ a ∈ l.dropWhile p, p a = true) : ∀ a ∈ l, p a = true := by
  intro a ha
  rw [← List.takeWhile_append_dropWhile p l] at ha
  rcases List.mem_append.mp ha with hm | hm
  · exact List.mem_takeWhile_imp hm
  · exact h a hm

theorem stripChars_eq_nil_iff (l : List Char) :
    stripChars l = [] ↔ l.all wsChar = true := by
  unfold stripChars
  constructor
  · intro h
    rw [List.reverse_eq_nil_iff, List.dropWhile_eq_nil_iff] at h
    have h2 : ∀ a ∈ l.dropWhile wsChar, wsChar a = true :=
      fun a ha => h a (List.mem_reverse.mpr ha)
    rw [List.all_eq_true]
    exact all_of_dropWhile_all wsChar l h2
  · intro h
    rw [List.all_eq_true] at h
    have h1 : l.dropWhile wsChar = [] := List.dropWhile_eq_nil_iff.mpr h
    rw [h1]
    rfl

theorem joinSp_all_ws : ∀ ls : List (List Char),
    ((joinSp ls).all wsChar = true ↔ ∀ l ∈ ls, l.all wsChar = true) := by
  intro ls
  induction ls with
  | nil => simp [joinSp]
  | cons x xs ih =>
    cases xs with
    | nil => simp [joinSp]
    | cons y ys =>
      have hsp : wsChar ' ' = true := by decide
      simp only [joinSp, List.all_append, List.all_cons, hsp, Bool.true_and,
        List.forall_mem_cons, Bool.and_eq_true] at ih ⊢
      constructor
      · intro hx
        exact ⟨hx.1, (ih.mp hx.2).1, (ih.mp hx.2).2⟩
      · intro hx
        exact ⟨hx.1, ih.mpr ⟨hx.2.1, hx.2.2⟩⟩

theorem extracted_text_nonempty {bs : List TBlock}
    (h : pyStrip (pyJoinSpace (declContents bs)) ≠ "") :
    ∃ bl ∈ bs, blockKeepsEmptyT bl = false := by
  have h1 : stripChars (joinSp ((declContents bs).map String.toList)) ≠ [] :=
    fun hc => h ((mk_eq_empty_iff _).mpr hc)
  have h2 : ¬ ((joinSp ((declContents bs).map String.toList)).all wsChar = true) :=
    fun hall => h1 ((stripChars_eq_nil_iff _).mpr hall)
  have h3 : ¬ ∀ l ∈ (declContents bs).map String.toList, l.all wsChar = true :=
    fun hall => h2 ((joinSp_all_ws _).mpr hall)
  push_neg at h3
  obtain ⟨l, hl, hlw⟩ := h3
  obtain ⟨str, hstr, rfl⟩ := List.mem_map.mp hl
  obtain ⟨bl, hbl, hmemc⟩ := List.mem_flatMap.mp hstr
  refine ⟨bl, hbl, ?_⟩
  unfold blockContents at hmemc
  by_cases hq : jMemStrList (J.s bl.ty) qualTypes = true
  · rw [if_pos hq] at hmemc
    obtain ⟨sp, hsp, rfl⟩ := List.mem_map.mp hmemc
    have hfil := List.mem_filter.mp hsp
    cases hR : bl.hasRich
    · rw [hR] at hfil
      simp at hfil
    · have hmemsp : sp ∈ bl.spans := by
        have := hfil.1
        rw [hR] at this
        simpa using this
      have hnb : spanNonBlank sp = true := by
        have hne : pyStrip sp.content ≠ "" := by
          intro hps
          apply hlw
          have : stripChars sp.content.toList = [] := (mk_eq_empty_iff _).mp hps
          exact (stripChars_eq_nil_iff _).mp this
        simp [spanNonBlank, hfil.2, hne]
      have hany : bl.spans.any spanNonBlank = true :=
        List.any_eq_true.mpr ⟨sp, hmemsp, hnb⟩
      simp [blockKeepsEmptyT, hR, hany]
  · rw [if_neg hq] at hmemc
    exact absurd hmemc (List.not_mem_nil _)

theorem is_empty_false_of_text (bs : List TBlock)
    (hty : ∀ bl ∈ bs, bl.ty ≠ "type")
    (h : pyStrip (pyJoinSpace (declContents bs)) ≠ "") :
    is_empty (bs.map blockToJ) = Except.ok false := by
  rw [is_empty_toJ bs hty]
  obtain ⟨bl, hmem, hk⟩ := extracted_text_nonempty h
  have hall : bs.all blockKeepsEmptyT = false :=
    List.all_eq_false.mpr ⟨bl, hmem, by simp [hk]⟩
  rw [hall]

/-! ## Claim C9: declining the deletion of an empty page -/

/-- Claim C9: when the page is classified empty, deletion confirmation is
enabled and the interactive answer is not affirmative, the iteration prompts
for deletion, issues no delete call, never enters the title apply branch (no
apply prompt, no title update) and moves on to the next page. -/
theorem empty_page_decline_no_delete (args : Args) (pageId : String)
    (blocks : List J) (llmTitle deleteAns applyAns raw : String)
    (hc : args.confirm_delete = true)
    (hraw : get_page_content_text blocks = Except.ok raw)
    (he : is_empty blocks = Except.ok true)
    (hans : answerYes deleteAns = false) :
    processPageOnBlocks args pageId blocks llmTitle deleteAns applyAns =
      Except.ok ((if raw = "" then [] else [PAction.suggestRequest raw]) ++
        [PAction.promptDelete]) ∧
    (PAction.deleteBlock pageId ∉
      ((if raw = "" then [] else [PAction.suggestRequest raw]) ++
        [PAction.promptDelete])) ∧
    (PAction.promptApply ∉
      ((if raw = "" then [] else [PAction.suggestRequest raw]) ++
        [PAction.promptDelete])) ∧
    (∀ pid props, PAction.updatePage pid props ∉
      ((if raw = "" then [] else [PAction.suggestRequest raw]) ++
        [PAction.promptDelete])) := by
  refine ⟨?_, ?_, ?_, ?_⟩
  · simp [processPageOnBlocks, hraw, he, except_bind_ok, except_pure,
      processPage, hc, hans]
  · by_cases hr : raw = "" <;> simp [hr]
  · by_cases hr : raw = "" <;> simp [hr]
  · intro pid props
    by_cases hr : raw = "" <;> simp [hr]

/-- Witness for claim C9 at an empty block list and the answer "no". -/
theorem empty_page_decline_no_delete_witness :
    processPageOnBlocks { auto_apply := false, confirm_delete := true } "pg" []
      "A title" "no" "yes" = Except.ok [PAction.promptDelete] :=
  ((empty_page_decline_no_delete { auto_apply := false, confirm_delete := true }
    "pg" [] "A title" "no" "yes" "" rfl rfl rfl (by decide)).1).trans rfl

/-! ## Claim C10: auto-apply on a page with extracted text -/

/-- Counterexample to claim C10 as stated: with `--auto-apply` set and a page
whose extracted text is "Meeting notes", a suggestion call that returns the
empty string leaves `suggested_title` falsy, so the apply branch is skipped
and no title-update call is issued at all — not exactly one. -/
theorem auto_apply_empty_suggestion_no_update :
    processPageOnBlocks { auto_apply := true, confirm_delete := true } "pg"
      (([⟨"paragraph", true, [⟨"text", "Meeting notes"⟩], false⟩] : List TBlock).map blockToJ)
      "" "no" "no" =
      Except.ok [PAction.suggestRequest "Meeting notes"] ∧
    List.countP isUpdateAction [PAction.suggestRequest "Meeting notes"] = 0 :=
  ⟨rfl, rfl⟩

/-- Amended claim C10: with `--auto-apply` set, on every well-formed page
whose extracted text is non-empty and whose suggestion call returns a
non-empty string, exactly one suggestion request is made and exactly one
title-update call is issued carrying that suggestion as the page title
property, with no deletion prompt. -/
theorem auto_apply_updates_once (bs : List TBlock) (args : Args)
    (pageId llmTitle deleteAns applyAns t : String)
    (hty : ∀ bl ∈ bs, bl.ty ≠ "type")
    (ha : args.auto_apply = true)
    (ht : get_page_content_text (bs.map blockToJ) = Except.ok t)
    (htne : t ≠ "")
    (hllm : llmTitle ≠ "") :
    processPageOnBlocks args pageId (bs.map blockToJ) llmTitle deleteAns applyAns =
      Except.ok [PAction.suggestRequest t,
        PAction.updatePage pageId (titleUpdateProps llmTitle)] ∧
    List.countP isSuggestAction [PAction.suggestRequest t,
      PAction.updatePage pageId (titleUpdateProps llmTitle)] = 1 ∧
    List.countP isUpdateAction [PAction.suggestRequest t,
      PAction.updatePage pageId (titleUpdateProps llmTitle)] = 1 ∧
    PAction.promptDelete ∉ [PAction.suggestRequest t,
      PAction.updatePage pageId (titleUpdateProps llmTitle)] := by
  have hts : pyStrip (pyJoinSpace (declContents bs)) = t := by
    have := (gpct_toJ bs).symm.trans ht
    injection this
  have he : is_empty (bs.map blockToJ) = Except.ok false :=
    is_empty_false_of_text bs hty (by rw [hts]; exact htne)
  refine ⟨?_, rfl, rfl, by simp⟩
  simp [processPageOnBlocks, ht, he, except_bind_ok, except_pure,
    processPage, ha, htne, hllm]

/-- Witness for amended claim C10 at a concrete paragraph page. -/
theorem auto_apply_updates_once_witness :
    processPageOnBlocks { auto_apply := true, confirm_delete := true } "pg"
      (([⟨"paragraph", true, [⟨"text", "Meeting notes"⟩], false⟩] : List TBlock).map blockToJ)
      "Weekly sync" "no" "no" =
      Except.ok [PAction.suggestRequest "Meeting notes",
        PAction.updatePage "pg" (titleUpdateProps "Weekly sync")] :=
  (auto_apply_updates_once [⟨"paragraph", true, [⟨"text", "Meeting notes"⟩], false⟩]
    { auto_apply := true, confirm_delete := true } "pg" "Weekly sync" "no" "no"
    "Meeting notes" (by decide) rfl rfl (by decide) (by decide)).1
